import Mathlib

/-!
Verification of the DeadClickCrawler core against its specification.

The definitions below are a shallow embedding of the Python source:
* `backend/utils/element_utils.py` — `advanced_deduplication`, `create_unique_id`,
  `is_dead_click_by_href`;
* `backend/core/click_tester.py` — `_divide_elements_into_batches`,
  `_test_element_batch`, the locate/click/classify phases of
  `_test_element_click_with_driver`, the fingerprint-collapse filter of
  `find_clickable_elements`, and the outcome tally of
  `run_comprehensive_test_concurrent`.

Element descriptors are Python dicts of strings plus an integer fingerprint;
they are embedded as a structure with those fields.  Python's `hash` is an
unspecified function of the joined string, so `create_unique_id` is
parametrised by an arbitrary `String → Int`.  Selenium driver calls are
modelled by an explicit environment record of the values those calls return.
-/

namespace DeadClickCrawler

/-- Embedding of the element_info dict built by `extract_element_info`.
Fields not used by the verified operations are omitted. -/
structure ElementInfo where
  tag_name : String := ""
  text : String := ""
  class_names : String := ""
  id : String := ""
  href : String := ""
  onclick : String := ""
  xpath : String := ""
  unique_id : Int := 0
deriving DecidableEq, Repr

/-! ### Python string primitives used by the source, over `List Char` -/

/-- Python `hay.startswith(needle)` on explicit character lists. -/
def listStartsWith : List Char → List Char → Bool
  | _, [] => true
  | [], _ :: _ => false
  | a :: as, b :: bs => a == b && listStartsWith as bs

/-- Python `needle in hay` (substring containment) on character lists. -/
def listContainsSub : List Char → List Char → Bool
  | [], needle => needle.isEmpty
  | a :: t, needle => listStartsWith (a :: t) needle || listContainsSub t needle

/-- Python `hay.startswith(needle)` for strings. -/
def strStartsWith (hay needle : String) : Bool :=
  listStartsWith hay.toList needle.toList

/-- Python `needle in hay` (substring test) for strings. -/
def strContains (hay needle : String) : Bool :=
  listContainsSub hay.toList needle.toList

/-- Python `s.count('/')` : number of '/' characters in `s`. -/
def countSlashes (s : String) : Nat :=
  s.toList.count '/'

/-- Python `s.replace(' ', '').lower()` as applied to href/onclick values
(ASCII lowering; removal of every space). -/
def stripSpacesLower (s : String) : String :=
  String.mk ((s.toList.filter (fun c => c ≠ ' ')).map Char.toLower)

/-- Python `s[:50]` (first 50 code points). -/
def take50 (s : String) : String :=
  String.mk (s.toList.take 50)

/-! ### `element_utils.create_unique_id` and `element_utils.is_dead_click_by_href` -/

/-- `create_unique_id`: joins (tag_name, id, class_names, text[:50]) with `'|'`
and hashes the result.  Python's `hash` is an arbitrary fixed function of the
string, so it is passed as a parameter `h`. -/
def create_unique_id (h : String → Int) (element_info : ElementInfo) : Int :=
  h (element_info.tag_name ++ "|" ++ element_info.id ++ "|"
      ++ element_info.class_names ++ "|" ++ take50 element_info.text)

/-- The dead-pattern list of `is_dead_click_by_href`. -/
def dead_patterns : List String :=
  ["", "#", "javascript:void(0)", "javascript:void(0);", "javascript:",
   "javascript::void(0)", "void(0)", "undefined", "null", "about:blank"]

/-- `is_dead_click_by_href` from `element_utils.py`. -/
def is_dead_click_by_href (element_info : ElementInfo) : Bool :=
  let href := stripSpacesLower element_info.href
  let onclick := stripSpacesLower element_info.onclick
  if href ∈ dead_patterns then true
  else if strStartsWith href "javascript:" || strStartsWith href "void(0)" then true
  else if onclick ∈ ["void(0)", "javascript:void(0)", ""] then true
  else if strStartsWith onclick "javascript:" then true
  else false

/-! ### Outcome classification (`_test_element_click_with_driver`, observe phase) -/

/-- The values the driver reports around one click: URL and title before and
after, whether the polled DOM hash changed, and whether modal/dropdown
selectors matched any element afterwards. -/
structure Observation where
  initial_url : String := ""
  initial_title : String := ""
  current_url : String := ""
  current_title : String := ""
  dom_changed : Bool := false
  modals_present : Bool := false
  dropdowns_present : Bool := false
deriving DecidableEq, Repr

/-- The per-element result dict (fields relevant to the claims). -/
structure ClickOutcome where
  element_info : ElementInfo := {}
  click_status : String := "unknown"
  error_message : String := ""
  page_changed : Bool := false
  url_before : String := ""
  url_after : String := ""
  new_elements_appeared : Bool := false
deriving DecidableEq, Repr

/-- The classification chain of `_test_element_click_with_driver`
(lines 224–246): URL change, then title change, then DOM change, then
modal/dropdown, then suspicious href/onclick, then generic dead click. -/
def classify_outcome (element_info : ElementInfo) (obs : Observation) : ClickOutcome :=
  let is_suspicious := is_dead_click_by_href element_info
  if obs.current_url ≠ obs.initial_url then
    { element_info := element_info, click_status := "active_navigation",
      page_changed := true, url_before := obs.initial_url, url_after := obs.current_url }
  else if obs.current_title ≠ obs.initial_title then
    { element_info := element_info, click_status := "active_title_change",
      page_changed := true, url_before := obs.initial_url, url_after := obs.current_url }
  else if obs.dom_changed then
    { element_info := element_info, click_status := "active_dom_change",
      url_before := obs.initial_url, url_after := obs.current_url }
  else if obs.modals_present || obs.dropdowns_present then
    { element_info := element_info, click_status := "active_ui_change",
      new_elements_appeared := true,
      url_before := obs.initial_url, url_after := obs.current_url }
  else if is_suspicious then
    { element_info := element_info, click_status := "dead_click",
      error_message := "Dead click: suspicious href or onclick and no visible effect",
      url_before := obs.initial_url, url_after := obs.current_url }
  else
    { element_info := element_info, click_status := "dead_click",
      error_message := "Dead click: no visible effect after click",
      url_before := obs.initial_url, url_after := obs.current_url }

/-! ### `element_utils.advanced_deduplication` -/

/-- Insert an element into a list already sorted by ascending xpath length,
before the first entry of no smaller length.  Folding it over the list gives
the unique stable ascending sort, i.e. Python's
`sorted(elements, key=lambda x: len(x.get('xpath', '')))`. -/
def insertByXpathLen (e : ElementInfo) : List ElementInfo → List ElementInfo
  | [] => [e]
  | a :: t =>
    if a.xpath.length < e.xpath.length then a :: insertByXpathLen e t
    else e :: a :: t

/-- Stable ascending sort by xpath length (see `insertByXpathLen`). -/
def sortByXpathLen : List ElementInfo → List ElementInfo
  | [] => []
  | x :: t => insertByXpathLen x (sortByXpathLen t)

/-- The special container class of `advanced_deduplication`. -/
def specialContainerClass : String := "variant-tabs__variant-list__item"

/-- Body of the inner loop of `advanced_deduplication` for the ordered pair
(`parent`, `child`), threading the set of discarded unique_ids. -/
def stepPair (parent child : ElementInfo) (d : List Int) : List Int :=
  if parent.unique_id ∈ d ∨ child.unique_id ∈ d then d
  else if parent.xpath = "" ∨ child.xpath = "" then d
  else if strContains parent.class_names specialContainerClass
          ∧ strStartsWith child.xpath parent.xpath ∧ child.xpath ≠ parent.xpath then
    child.unique_id :: d
  else if strStartsWith child.xpath parent.xpath
          ∧ countSlashes child.xpath = countSlashes parent.xpath + 1 then
    if (parent.text ≠ "" ∧ parent.text = child.text)
        ∨ (parent.class_names ≠ "" ∧ parent.class_names = child.class_names) then
      child.unique_id :: d
    else d
  else d

/-- Inner loop of `advanced_deduplication`: one parent against all later
elements, in order. -/
def scanChildren (parent : ElementInfo) (children : List ElementInfo) (d : List Int) : List Int :=
  children.foldl (fun acc c => stepPair parent c acc) d

/-- Outer loop of `advanced_deduplication` over all ordered pairs
of the sorted list. -/
def scanPairs : List ElementInfo → List Int → List Int
  | [], d => d
  | p :: rest, d => scanPairs rest (scanChildren p rest d)

/-- `advanced_deduplication` from `element_utils.py`: sort by ascending xpath
length, accumulate the discard set over all ordered pairs, then filter the
original list by membership of `unique_id` in the discard set. -/
def advanced_deduplication (elements : List ElementInfo) : List ElementInfo :=
  let sorted_elements := sortByXpathLen elements
  let elements_to_discard := scanPairs sorted_elements []
  elements.filter (fun elem => decide (elem.unique_id ∉ elements_to_discard))

/-- The discard condition of `advanced_deduplication` for a pair examined
when neither endpoint has been discarded yet: non-empty xpaths and either the
special-container rule or the one-level-deeper rule with a shared non-empty
text or class string. -/
def shouldDiscard (parent child : ElementInfo) : Prop :=
  (parent.xpath ≠ "" ∧ child.xpath ≠ "") ∧
    ((strContains parent.class_names specialContainerClass
        ∧ strStartsWith child.xpath parent.xpath ∧ child.xpath ≠ parent.xpath)
     ∨ (strStartsWith child.xpath parent.xpath
        ∧ countSlashes child.xpath = countSlashes parent.xpath + 1
        ∧ ((parent.text ≠ "" ∧ parent.text = child.text)
            ∨ (parent.class_names ≠ "" ∧ parent.class_names = child.class_names))))

instance (parent child : ElementInfo) : Decidable (shouldDiscard parent child) := by
  unfold shouldDiscard; infer_instance

/-- The discard condition exactly as the specification words it, with no
requirement that the shared text or class string be non-empty (for the
refinement comparison with `shouldDiscard`). -/
def specPairCondition (parent child : ElementInfo) : Prop :=
  (strContains parent.class_names specialContainerClass
      ∧ strStartsWith child.xpath parent.xpath ∧ child.xpath ≠ parent.xpath)
  ∨ (strStartsWith child.xpath parent.xpath
      ∧ countSlashes child.xpath = countSlashes parent.xpath + 1
      ∧ (parent.text = child.text ∨ parent.class_names = child.class_names))

instance (parent child : ElementInfo) : Decidable (specPairCondition parent child) := by
  unfold specPairCondition; infer_instance

/-! ### Fingerprint collapse of `find_clickable_elements` (lines 709–714) -/

/-- The final filter of `find_clickable_elements`: keep each element whose
`unique_id` is truthy (non-zero, since a Python int is falsy exactly when it
is 0) and not seen before; thread the seen set.  The dicts themselves are
always non-empty, so the `element_info and` guard of the source is always
true here. -/
def fingerprintCollapse : List ElementInfo → List Int → List ElementInfo
  | [], _ => []
  | e :: rest, seen =>
    if e.unique_id ≠ 0 ∧ e.unique_id ∉ seen then
      e :: fingerprintCollapse rest (e.unique_id :: seen)
    else fingerprintCollapse rest seen

/-- The deduplication stage of the discovery pipeline:
`advanced_deduplication` followed by the fingerprint collapse. -/
def discovery_dedup (elements : List ElementInfo) : List ElementInfo :=
  fingerprintCollapse (advanced_deduplication elements) []

/-! ### `_divide_elements_into_batches` -/

/-- The loop of `_divide_elements_into_batches`: `i` is the loop index,
`start_idx` the running slice start, `iters` the remaining iterations;
`elements[start_idx:end_idx]` is `(elements.drop start_idx).take size`;
empty batches are not appended. -/
def divideLoop (elements : List α) (batch_size remainder : Nat) :
    Nat → Nat → Nat → List (List α)
  | _, _, 0 => []
  | i, start_idx, Nat.succ iters =>
    let current_batch_size := batch_size + (if i < remainder then 1 else 0)
    let batch := (elements.drop start_idx).take current_batch_size
    if batch.isEmpty then
      divideLoop elements batch_size remainder (i + 1) (start_idx + current_batch_size) iters
    else
      batch :: divideLoop elements batch_size remainder (i + 1) (start_idx + current_batch_size) iters

/-- `_divide_elements_into_batches` from `click_tester.py`. -/
def divide_elements_into_batches (elements : List α) (num_batches : Nat) : List (List α) :=
  divideLoop elements (elements.length / num_batches) (elements.length % num_batches)
    0 0 num_batches

/-! ### The locate/click phases of `_test_element_click_with_driver` -/

/-- A located element handle: what `is_displayed`/`is_enabled` report at
locate time and again after the scroll-into-view. -/
structure LocatedElement where
  displayed : Bool := true
  enabled : Bool := true
  displayed_after_scroll : Bool := true
  enabled_after_scroll : Bool := true
deriving DecidableEq, Repr

/-- How the click simulation turns out: a clean click, an intercepted click
whose JS fallback succeeds, an intercepted click whose JS fallback raises, or
any other exception. -/
inductive ClickAttempt where
  | success
  | interceptedThenJsOk
  | interceptedThenJsFail (msg : String)
  | otherFailure (msg : String)
deriving DecidableEq, Repr

/-- Environment of one `_test_element_click_with_driver` call: the result of
`_find_element_by_info_with_driver` on each retry attempt, the click
behaviour, the post-click observation, and an optional exception raised
anywhere in the guarded block (caught by the trailing `except`). -/
structure TestEnv where
  find_attempt : Nat → Option LocatedElement
  click_attempt : ClickAttempt := ClickAttempt.success
  observation : Observation := {}
  raised : Option String := none

/-- The `element and element.is_displayed() and element.is_enabled()` break
test of the retry loop. -/
def interactable : Option LocatedElement → Bool
  | none => false
  | some el => el.displayed && el.enabled

/-- The retry loop (`for attempt in range(3)`): stop at the first attempt
returning an interactable element; otherwise the loop leaves the third
attempt's result in `element`. -/
def locate_with_retries (find_attempt : Nat → Option LocatedElement) :
    Option LocatedElement :=
  if interactable (find_attempt 0) then find_attempt 0
  else if interactable (find_attempt 1) then find_attempt 1
  else find_attempt 2

/-- `_test_element_click_with_driver`: locate with retries, check
displayed/enabled after scrolling, click with JS fallback, then classify.
An exception raised in the guarded block is recorded by the final
`except` handler as an `error` result (the fields filled in before the
exception are not modelled). -/
def test_element_click (element_info : ElementInfo) (env : TestEnv) : ClickOutcome :=
  match env.raised with
  | some msg =>
    { element_info := element_info, click_status := "error", error_message := msg }
  | none =>
    match locate_with_retries env.find_attempt with
    | none =>
      { element_info := element_info, click_status := "element_not_found",
        error_message := "Element could not be located for clicking (after retries)",
        url_before := env.observation.initial_url }
    | some el =>
      if el.displayed_after_scroll && el.enabled_after_scroll then
        match env.click_attempt with
        | ClickAttempt.interceptedThenJsFail msg =>
          { element_info := element_info, click_status := "click_intercepted",
            error_message := "Click intercepted: " ++ msg,
            url_before := env.observation.initial_url }
        | ClickAttempt.otherFailure msg =>
          { element_info := element_info, click_status := "error",
            error_message := "Error during click: " ++ msg,
            url_before := env.observation.initial_url }
        | _ => classify_outcome element_info env.observation
      else
        { element_info := element_info, click_status := "not_clickable",
          error_message := "Element is not displayed or enabled",
          url_before := env.observation.initial_url }

/-! ### `_test_element_batch` -/

/-- The error dict built at the batch boundary of `_test_element_batch`. -/
def batch_error_result (element_info : ElementInfo) (url : String) (msg : String) :
    ClickOutcome :=
  { element_info := element_info, click_status := "batch_error", error_message := msg,
    page_changed := false, url_before := url, url_after := url,
    new_elements_appeared := false }

/-- `_test_element_batch`: run every element of the batch; an exception
escaping the per-element run is caught, recorded as a `batch_error` entry for
that element, and the loop continues.  `run_element` stands for the per-element
body (navigation plus `_test_element_click_with_driver`), returning either a
result dict or the message of an escaped exception. -/
def test_element_batch (batch : List ElementInfo)
    (run_element : ElementInfo → Except String ClickOutcome) (url : String) :
    List ClickOutcome :=
  batch.map (fun element_info =>
    match run_element element_info with
    | Except.ok result => result
    | Except.error msg => batch_error_result element_info url msg)

/-! ### The outcome tally of `run_comprehensive_test_concurrent` (lines 1098–1104) -/

/-- One step of the tally loop: `startswith('active')` counts as active,
exactly `'dead_click'` as dead, everything else as an error. -/
def tallyStep (acc : Nat × Nat × Nat) (result : ClickOutcome) : Nat × Nat × Nat :=
  if strStartsWith result.click_status "active" then
    (acc.1 + 1, acc.2.1, acc.2.2)
  else if result.click_status = "dead_click" then
    (acc.1, acc.2.1 + 1, acc.2.2)
  else
    (acc.1, acc.2.1, acc.2.2 + 1)

/-- The tally loop over the accumulated results:
`(active_clicks, dead_clicks, errors)`. -/
def tally_outcomes (results : List ClickOutcome) : Nat × Nat × Nat :=
  results.foldl tallyStep (0, 0, 0)

/-! ### Lemmas about the discard-set accumulation of `advanced_deduplication` -/

theorem scanChildren_nil (p : ElementInfo) (d : List Int) : scanChildren p [] d = d := rfl

theorem scanChildren_cons (p c : ElementInfo) (cs : List ElementInfo) (d : List Int) :
    scanChildren p (c :: cs) d = scanChildren p cs (stepPair p c d) := rfl

theorem mem_stepPair_self {x : Int} {d : List Int} (p c : ElementInfo) (hx : x ∈ d) :
    x ∈ stepPair p c d := by
  unfold stepPair
  split_ifs <;> simp [hx]

theorem mem_stepPair {x : Int} {d : List Int} {p c : ElementInfo}
    (hx : x ∈ stepPair p c d) : x = c.unique_id ∨ x ∈ d := by
  unfold stepPair at hx
  split_ifs at hx <;> first | exact Or.inr hx | exact List.mem_cons.mp hx

theorem stepPair_parent_mem {d : List Int} {p : ElementInfo} (c : ElementInfo)
    (hp : p.unique_id ∈ d) : stepPair p c d = d := by
  unfold stepPair
  rw [if_pos (Or.inl hp)]

theorem stepPair_child_mem {d : List Int} {c : ElementInfo} (p : ElementInfo)
    (hc : c.unique_id ∈ d) : stepPair p c d = d := by
  unfold stepPair
  rw [if_pos (Or.inr hc)]

theorem stepPair_of_not_mem {d : List Int} {p c : ElementInfo}
    (hp : p.unique_id ∉ d) (hc : c.unique_id ∉ d) :
    stepPair p c d = if shouldDiscard p c then c.unique_id :: d else d := by
  unfold stepPair shouldDiscard
  rw [if_neg (by tauto)]
  split_ifs <;> first | rfl | tauto

theorem mem_scanChildren_self (p : ElementInfo) :
    ∀ (cs : List ElementInfo) {x : Int} {d : List Int}, x ∈ d → x ∈ scanChildren p cs d
  | [], _, _, hx => hx
  | c :: cs, _, _, hx =>
    mem_scanChildren_self p cs (mem_stepPair_self p c hx)

theorem mem_scanChildren (p : ElementInfo) :
    ∀ (cs : List ElementInfo) {x : Int} {d : List Int}, x ∈ scanChildren p cs d →
      x ∈ d ∨ x ∈ cs.map (fun e => e.unique_id)
  | [], _, _, hx => Or.inl hx
  | c :: cs, _, _, hx => by
    rcases mem_scanChildren p cs hx with h | h
    · rcases mem_stepPair h with h | h
      · exact Or.inr (by rw [List.map_cons, h]; exact List.mem_cons_self _ _)
      · exact Or.inl h
    · exact Or.inr (by rw [List.map_cons]; exact List.mem_cons_of_mem _ h)

theorem mem_scanPairs_self :
    ∀ (l : List ElementInfo) {x : Int} {d : List Int}, x ∈ d → x ∈ scanPairs l d
  | [], _, _, hx => hx
  | p :: rest, _, _, hx =>
    mem_scanPairs_self rest (mem_scanChildren_self p rest hx)

theorem mem_scanPairs :
    ∀ (l : List ElementInfo) {x : Int} {d : List Int}, x ∈ scanPairs l d →
      x ∈ d ∨ x ∈ l.map (fun e => e.unique_id)
  | [], _, _, hx => Or.inl hx
  | p :: rest, _, _, hx => by
    rcases mem_scanPairs rest hx with h | h
    · rcases mem_scanChildren p rest h with h | h
      · exact Or.inl h
      · exact Or.inr (by simp at h ⊢; tauto)
    · exact Or.inr (by simp at h ⊢; tauto)

theorem scanChildren_hit (p B : ElementInfo) (hd : shouldDiscard p B) :
    ∀ (cs : List ElementInfo) (d : List Int), B ∈ cs →
      B.unique_id ∈ scanChildren p cs d ∨ p.unique_id ∈ scanChildren p cs d := by
  intro cs
  induction cs with
  | nil => intro d h; cases h
  | cons c cs ih =>
    intro d hB
    rcases List.mem_cons.mp hB with rfl | hB
    · by_cases hp : p.unique_id ∈ d
      · right
        rw [scanChildren_cons]
        exact mem_scanChildren_self p cs (mem_stepPair_self p B hp)
      · by_cases hc : B.unique_id ∈ d
        · left
          rw [scanChildren_cons]
          exact mem_scanChildren_self p cs (mem_stepPair_self p B hc)
        · left
          rw [scanChildren_cons, stepPair_of_not_mem hp hc, if_pos hd]
          exact mem_scanChildren_self p cs (List.mem_cons_self _ _)
    · rw [scanChildren_cons]
      exact ih (stepPair p c d) hB

theorem scanPairs_hit (A B : ElementInfo) (hd : shouldDiscard A B) :
    ∀ (l : List ElementInfo) (d : List Int), List.Sublist [A, B] l →
      B.unique_id ∈ scanPairs l d ∨ A.unique_id ∈ scanPairs l d := by
  intro l
  induction l with
  | nil => intro d h; cases h
  | cons p rest ih =>
    intro d hsub
    cases hsub with
    | cons _ h => exact ih (scanChildren p rest d) h
    | cons₂ _ h =>
      rcases scanChildren_hit A B hd rest d (List.singleton_sublist.mp h) with hB | hA
      · exact Or.inl (mem_scanPairs_self rest hB)
      · exact Or.inr (mem_scanPairs_self rest hA)

theorem scanChildren_extract (p : ElementInfo) :
    ∀ (cs : List ElementInfo) (d : List Int) (u : Int),
      p.unique_id ∉ cs.map (fun e => e.unique_id) → u ∈ scanChildren p cs d →
      u ∈ d ∨ ∃ c ∈ cs, c.unique_id = u ∧ shouldDiscard p c
        ∧ p.unique_id ∉ scanChildren p cs d := by
  intro cs
  induction cs with
  | nil => intro d u _ hu; exact Or.inl hu
  | cons c cs ih =>
    intro d u hp hu
    have hpcs : p.unique_id ∉ cs.map (fun e => e.unique_id) := by
      simp only [List.map_cons, List.mem_cons] at hp; tauto
    have hpc : p.unique_id ≠ c.unique_id := by
      simp only [List.map_cons, List.mem_cons] at hp; tauto
    rw [scanChildren_cons] at hu
    rcases ih (stepPair p c d) u hpcs hu with h | h
    · by_cases hpd : p.unique_id ∈ d
      · rw [stepPair_parent_mem c hpd] at h
        exact Or.inl h
      · by_cases hcd : c.unique_id ∈ d
        · rw [stepPair_child_mem p hcd] at h
          exact Or.inl h
        · rw [stepPair_of_not_mem hpd hcd] at h
          by_cases hsd : shouldDiscard p c
          · rw [if_pos hsd] at h
            rcases List.mem_cons.mp h with rfl | h
            · refine Or.inr ⟨c, List.mem_cons_self _ _, rfl, hsd, ?_⟩
              intro hmem
              rw [scanChildren_cons, stepPair_of_not_mem hpd hcd, if_pos hsd] at hmem
              rcases mem_scanChildren p cs hmem with h1 | h1
              · rcases List.mem_cons.mp h1 with h2 | h2
                · exact hpc h2
                · exact hpd h2
              · exact hpcs h1
            · exact Or.inl h
          · rw [if_neg hsd] at h
            exact Or.inl h
    · rcases h with ⟨c', hc', hcu, hsd, hnot⟩
      refine Or.inr ⟨c', List.mem_cons_of_mem _ hc', hcu, hsd, ?_⟩
      rw [scanChildren_cons]
      exact hnot

theorem scanPairs_extract :
    ∀ (l : List ElementInfo) (d : List Int) (u : Int),
      l.Pairwise (fun a b => a.unique_id ≠ b.unique_id) → u ∈ scanPairs l d →
      u ∈ d ∨ ∃ p c, List.Sublist [p, c] l ∧ c.unique_id = u ∧ shouldDiscard p c
        ∧ p.unique_id ∉ scanPairs l d := by
  intro l
  induction l with
  | nil => intro d u _ hu; exact Or.inl hu
  | cons p rest ih =>
    intro d u hdist hu
    rcases List.pairwise_cons.mp hdist with ⟨hp, hrest⟩
    have hpuid : p.unique_id ∉ rest.map (fun e => e.unique_id) := by
      simp only [List.mem_map]
      rintro ⟨b, hb, hbe⟩
      exact hp b hb hbe.symm
    rcases ih (scanChildren p rest d) u hrest hu with h | h
    · rcases scanChildren_extract p rest d u hpuid h with h | h
      · exact Or.inl h
      · rcases h with ⟨c, hc, hcu, hsd, hnot⟩
        refine Or.inr ⟨p, c, List.Sublist.cons₂ p (List.singleton_sublist.mpr hc), hcu, hsd, ?_⟩
        intro hmem
        rcases mem_scanPairs rest hmem with hmem | hmem
        · exact hnot hmem
        · exact hpuid hmem
    · rcases h with ⟨p', c', hsub, hcu, hsd, hnot⟩
      exact Or.inr ⟨p', c', List.Sublist.cons p hsub, hcu, hsd, hnot⟩

/-! ### The sort is a permutation; membership in `advanced_deduplication` -/

theorem insertByXpathLen_perm (e : ElementInfo) (l : List ElementInfo) :
    (insertByXpathLen e l).Perm (e :: l) := by
  induction l with
  | nil => exact List.Perm.refl _
  | cons a t ih =>
    unfold insertByXpathLen
    split
    · exact (ih.cons a).trans (List.Perm.swap e a t)
    · exact List.Perm.refl _

theorem sortByXpathLen_perm (l : List ElementInfo) : (sortByXpathLen l).Perm l := by
  induction l with
  | nil => exact List.Perm.refl _
  | cons x t ih =>
    exact (insertByXpathLen_perm x (sortByXpathLen t)).trans (ih.cons x)

theorem mem_advanced_deduplication {x : ElementInfo} {l : List ElementInfo} :
    x ∈ advanced_deduplication l ↔
      x ∈ l ∧ x.unique_id ∉ scanPairs (sortByXpathLen l) [] := by
  unfold advanced_deduplication
  simp [List.mem_filter]

theorem uid_inj :
    ∀ {l : List ElementInfo},
      l.Pairwise (fun a b => a.unique_id ≠ b.unique_id) →
      ∀ {a b : ElementInfo}, a ∈ l → b ∈ l → a.unique_id = b.unique_id → a = b := by
  intro l
  induction l with
  | nil => intro _ a b ha; cases ha
  | cons x t ih =>
    intro hdist a b ha hb he
    rcases List.pairwise_cons.mp hdist with ⟨hx, ht⟩
    rcases List.mem_cons.mp ha with ha1 | ha1
    · rcases List.mem_cons.mp hb with hb1 | hb1
      · rw [ha1, hb1]
      · rw [ha1] at he
        exact absurd he (hx b hb1)
    · rcases List.mem_cons.mp hb with hb1 | hb1
      · rw [hb1] at he
        exact absurd he.symm (hx a ha1)
      · exact ih ht ha1 hb1 he

/-! ### Claim C2 -/

/-- Three descriptors in which the middle one is discarded as a one-level
descendant of the first, so that it can no longer discard its own child. -/
def c2X : ElementInfo := { unique_id := 1, xpath := "/a", text := "T", class_names := "c1" }

def c2Y : ElementInfo := { unique_id := 2, xpath := "/a/b", text := "T", class_names := "c2" }

def c2Z : ElementInfo := { unique_id := 3, xpath := "/a/b/c", text := "T", class_names := "c3" }

/-- C2 counterexample: in the sorted list [c2X, c2Y, c2Z], the pair
(c2Y, c2Z) satisfies the claim's discard condition (one level deeper,
identical text), so the claim says c2Z is discarded; but c2Y is itself
discarded first (by c2X), the loop skips pairs whose parent is already
discarded, and the code keeps c2Z. -/
theorem advanced_deduplication_spec_counterexample :
    List.Sublist [c2Y, c2Z] (sortByXpathLen [c2X, c2Y, c2Z])
    ∧ specPairCondition c2Y c2Z
    ∧ advanced_deduplication [c2X, c2Y, c2Z] = [c2X, c2Z] := by
  refine ⟨by decide, by decide, by decide⟩

/-- C2 (amended): in `advanced_deduplication` over descriptors with pairwise
distinct fingerprints, an input element B is discarded exactly when some
element A before it in the ascending-xpath-length order both survives
deduplication itself and satisfies the discard condition against B: both
xpaths non-empty, and either A's class string contains the special container
class and B's xpath strictly extends A's as a string prefix, or B's xpath
extends A's with exactly one more '/' and the two share an identical non-empty
text or an identical non-empty class string.  (A descriptor that is itself
discarded no longer discards its descendants, and an empty shared text or
class does not count — both corrections forced by the counterexample.) -/
theorem advanced_deduplication_discard_iff (elements : List ElementInfo)
    (hdist : elements.Pairwise (fun a b => a.unique_id ≠ b.unique_id))
    (B : ElementInfo) (hB : B ∈ elements) :
    B ∉ advanced_deduplication elements ↔
      ∃ A, List.Sublist [A, B] (sortByXpathLen elements)
        ∧ A ∈ advanced_deduplication elements ∧ shouldDiscard A B := by
  have hperm := sortByXpathLen_perm elements
  have hsdist : (sortByXpathLen elements).Pairwise (fun a b => a.unique_id ≠ b.unique_id) :=
    (List.Perm.pairwise_iff (fun h => Ne.symm h) hperm).mpr hdist
  constructor
  · intro hnot
    have hBuid : B.unique_id ∈ scanPairs (sortByXpathLen elements) [] := by
      by_contra hmem
      exact hnot (mem_advanced_deduplication.mpr ⟨hB, hmem⟩)
    rcases scanPairs_extract _ [] _ hsdist hBuid with h | ⟨p, c, hsub, hcu, hsd, hpnot⟩
    · cases h
    · have hc : c ∈ sortByXpathLen elements := hsub.subset (by simp)
      have hBs : B ∈ sortByXpathLen elements := hperm.mem_iff.mpr hB
      have hcB : c = B := uid_inj hsdist hc hBs hcu
      subst hcB
      refine ⟨p, hsub, ?_, hsd⟩
      exact mem_advanced_deduplication.mpr
        ⟨hperm.mem_iff.mp (hsub.subset (by simp)), hpnot⟩
  · rintro ⟨A, hsub, hA, hsd⟩ hBin
    have hAuid := (mem_advanced_deduplication.mp hA).2
    have hBuid := (mem_advanced_deduplication.mp hBin).2
    rcases scanPairs_hit A B hsd _ [] hsub with h | h
    · exact hBuid h
    · exact hAuid h

def c2W1 : ElementInfo := { unique_id := 10, xpath := "/p", text := "S", class_names := "k" }

def c2W2 : ElementInfo := { unique_id := 20, xpath := "/p/q", text := "S", class_names := "m" }

/-- C2 witness: the characterization applied to a concrete two-element list
whose child is discarded by its surviving parent. -/
theorem advanced_deduplication_discard_iff_witness :
    ([c2W1, c2W2].Pairwise (fun a b => a.unique_id ≠ b.unique_id)
      ∧ c2W2 ∈ [c2W1, c2W2])
    ∧ (c2W2 ∉ advanced_deduplication [c2W1, c2W2] ↔
        ∃ A, List.Sublist [A, c2W2] (sortByXpathLen [c2W1, c2W2])
          ∧ A ∈ advanced_deduplication [c2W1, c2W2] ∧ shouldDiscard A c2W2) :=
  ⟨⟨by decide, by decide⟩,
    advanced_deduplication_discard_iff [c2W1, c2W2] (by decide) c2W2 (by decide)⟩

/-! ### Lemmas about the fingerprint collapse -/

theorem advanced_deduplication_eq_filter (l : List ElementInfo) :
    advanced_deduplication l =
      l.filter (fun e => decide (e.unique_id ∉ scanPairs (sortByXpathLen l) [])) := rfl

theorem mem_fingerprintCollapse_not_seen :
    ∀ (l : List ElementInfo) (seen : List Int) {d : ElementInfo},
      d ∈ fingerprintCollapse l seen → d.unique_id ∉ seen := by
  intro l
  induction l with
  | nil => intro seen d h; cases h
  | cons e rest ih =>
    intro seen d h
    unfold fingerprintCollapse at h
    split_ifs at h with hg
    · rcases List.mem_cons.mp h with rfl | h
      · exact hg.2
      · have := ih _ h
        intro hseen
        exact this (List.mem_cons_of_mem _ hseen)
    · exact ih _ h

theorem mem_fingerprintCollapse_ne_zero :
    ∀ (l : List ElementInfo) (seen : List Int) {d : ElementInfo},
      d ∈ fingerprintCollapse l seen → d.unique_id ≠ 0 := by
  intro l
  induction l with
  | nil => intro seen d h; cases h
  | cons e rest ih =>
    intro seen d h
    unfold fingerprintCollapse at h
    split_ifs at h with hg
    · rcases List.mem_cons.mp h with rfl | h
      · exact hg.1
      · exact ih _ h
    · exact ih _ h

theorem fingerprintCollapse_sublist :
    ∀ (l : List ElementInfo) (seen : List Int), (fingerprintCollapse l seen).Sublist l := by
  intro l
  induction l with
  | nil => intro seen; exact List.Sublist.refl _
  | cons e rest ih =>
    intro seen
    unfold fingerprintCollapse
    split_ifs
    · exact List.Sublist.cons₂ e (ih _)
    · exact List.Sublist.cons e (ih _)

theorem fingerprintCollapse_pairwise :
    ∀ (l : List ElementInfo) (seen : List Int),
      (fingerprintCollapse l seen).Pairwise (fun a b => a.unique_id ≠ b.unique_id) := by
  intro l
  induction l with
  | nil => intro seen; exact List.Pairwise.nil
  | cons e rest ih =>
    intro seen
    unfold fingerprintCollapse
    split_ifs with hg
    · refine List.pairwise_cons.mpr ⟨?_, ih _⟩
      intro b hb
      have := mem_fingerprintCollapse_not_seen _ _ hb
      intro he
      exact this (by rw [← he]; exact List.mem_cons_self _ _)
    · exact ih _

theorem fingerprintCollapse_find? :
    ∀ (l : List ElementInfo) (seen : List Int) {d : ElementInfo},
      d ∈ fingerprintCollapse l seen →
      l.find? (fun e => e.unique_id == d.unique_id) = some d := by
  intro l
  induction l with
  | nil => intro seen d h; cases h
  | cons e rest ih =>
    intro seen d h
    unfold fingerprintCollapse at h
    split_ifs at h with hg
    · rcases List.mem_cons.mp h with rfl | h
      · exact List.find?_cons_of_pos _ (by simp)
      · have hne : d.unique_id ≠ e.unique_id := by
          have := mem_fingerprintCollapse_not_seen _ _ h
          intro he
          exact this (by rw [he]; exact List.mem_cons_self _ _)
        rw [List.find?_cons_of_neg _ (by simpa using fun he => hne he.symm)]
        exact ih _ h
    · have hne : e.unique_id ≠ d.unique_id := by
        have h0 := mem_fingerprintCollapse_ne_zero _ _ h
        have hs := mem_fingerprintCollapse_not_seen _ _ h
        rcases Decidable.not_and_iff_or_not.mp hg with h1 | h1
        · intro he
          exact h0 (by rw [← he]; simpa using h1)
        · intro he
          exact hs (by rw [← he]; simpa using h1)
      rw [List.find?_cons_of_neg _ (by simpa using hne)]
      exact ih _ h

theorem fingerprintCollapse_complete :
    ∀ (l : List ElementInfo) (seen : List Int) {x : ElementInfo},
      x ∈ l → x.unique_id ≠ 0 → x.unique_id ∉ seen →
      ∃ d ∈ fingerprintCollapse l seen, d.unique_id = x.unique_id := by
  intro l
  induction l with
  | nil => intro seen x h; cases h
  | cons e rest ih =>
    intro seen x hx h0 hs
    unfold fingerprintCollapse
    rcases List.mem_cons.mp hx with rfl | hx
    · rw [if_pos ⟨h0, hs⟩]
      exact ⟨x, List.mem_cons_self _ _, rfl⟩
    · split_ifs with hg
      · by_cases heq : x.unique_id = e.unique_id
        · exact ⟨e, List.mem_cons_self _ _, heq.symm⟩
        · rcases ih (e.unique_id :: seen) hx h0 (by simpa using ⟨heq, hs⟩) with ⟨d, hd, he⟩
          exact ⟨d, List.mem_cons_of_mem _ hd, he⟩
      · exact ih seen hx h0 hs

theorem find?_filter_of_uid (q : ElementInfo → Bool)
    (hq : ∀ a b : ElementInfo, a.unique_id = b.unique_id → q a = q b) :
    ∀ (l : List ElementInfo) {u : Int} {d : ElementInfo},
      (l.filter q).find? (fun e => e.unique_id == u) = some d →
      l.find? (fun e => e.unique_id == u) = some d := by
  intro l
  induction l with
  | nil => intro u d h; simp at h
  | cons x rest ih =>
    intro u d h
    by_cases hqx : q x = true
    · rw [List.filter_cons_of_pos hqx] at h
      by_cases hx : (x.unique_id == u) = true
      · simp only [List.find?_cons, hx] at h ⊢
        exact h
      · have hx' : (x.unique_id == u) = false := by simpa using hx
        simp only [List.find?_cons, hx'] at h ⊢
        exact ih h
    · rw [List.filter_cons_of_neg hqx] at h
      have hd : q d = true := (List.mem_filter.mp (List.mem_of_find?_eq_some h)).2
      have hdu : d.unique_id = u := by simpa using List.find?_some h
      have hx : (x.unique_id == u) = false := by
        by_contra hxx
        have hxu : x.unique_id = u := by
          simpa using Bool.of_not_eq_false hxx
        exact hqx (by rw [hq x d (by rw [hxu, hdu])]; exact hd)
      rw [List.find?_cons_of_neg _ (by simp [hx])]
      exact ih h

/-! ### Claim C4 -/

/-- A descriptor whose fingerprint hashes to 0 — a falsy Python int. -/
def c4E0 : ElementInfo := { unique_id := 0, xpath := "/a", text := "t", class_names := "c" }

/-- C4 counterexample: the input's sole descriptor survives structural
deduplication, yet the fingerprint collapse drops it because its fingerprint
0 fails the truthiness guard, so the first-seen entry of that fingerprint is
not kept. -/
theorem discovery_dedup_counterexample :
    c4E0 ∈ [c4E0] ∧ advanced_deduplication [c4E0] = [c4E0]
      ∧ discovery_dedup [c4E0] = [] := by
  refine ⟨by decide, by decide, by decide⟩

/-- C4 (amended): the deduplicated discovery output is a sublist of the input
(no element invented, input order preserved) with pairwise-distinct
fingerprints; every kept entry has a non-zero fingerprint and is the
first-seen input entry carrying that fingerprint; and every survivor of
structural deduplication whose fingerprint is non-zero is represented.
Entries whose fingerprint is 0 (Python-falsy) are dropped by the collapse
filter's truthiness check — the correction forced by the counterexample. -/
theorem discovery_dedup_spec (elements : List ElementInfo) :
    (discovery_dedup elements).Sublist elements
    ∧ (discovery_dedup elements).Pairwise (fun a b => a.unique_id ≠ b.unique_id)
    ∧ (∀ d ∈ discovery_dedup elements, d.unique_id ≠ 0
        ∧ elements.find? (fun e => e.unique_id == d.unique_id) = some d)
    ∧ (∀ x ∈ advanced_deduplication elements, x.unique_id ≠ 0 →
        ∃ d ∈ discovery_dedup elements, d.unique_id = x.unique_id) := by
  refine ⟨?_, fingerprintCollapse_pairwise _ _, ?_, ?_⟩
  · exact (fingerprintCollapse_sublist _ _).trans
      (advanced_deduplication_eq_filter elements ▸ List.filter_sublist elements)
  · intro d hd
    refine ⟨mem_fingerprintCollapse_ne_zero _ _ hd, ?_⟩
    have hfind := fingerprintCollapse_find? _ _ hd
    rw [advanced_deduplication_eq_filter] at hfind
    exact find?_filter_of_uid _ (fun a b hab => by rw [hab]) elements hfind
  · intro x hx h0
    exact fingerprintCollapse_complete _ [] hx h0 (by simp)

def c4W1 : ElementInfo := { unique_id := 5, xpath := "/a", text := "t1" }

def c4W2 : ElementInfo := { unique_id := 5, xpath := "/b", text := "t2" }

/-- C4 witness: two structurally unrelated descriptors share a fingerprint;
the pipeline keeps exactly the first-seen one, as the amended claim states. -/
theorem discovery_dedup_spec_witness :
    c4W1 ∈ discovery_dedup [c4W1, c4W2]
    ∧ (c4W1.unique_id ≠ 0
        ∧ [c4W1, c4W2].find? (fun e => e.unique_id == c4W1.unique_id) = some c4W1) :=
  ⟨by decide, (discovery_dedup_spec [c4W1, c4W2]).2.2.1 c4W1 (by decide)⟩

/-! ### Lemmas about `_divide_elements_into_batches` -/

/-- The total nominal size of the next `k` batches starting at loop index `i`. -/
def sizesSum (q r i : Nat) : Nat → Nat
  | 0 => 0
  | Nat.succ k => (q + if i < r then 1 else 0) + sizesSum q r (i + 1) k

/-- The nominal non-zero batch sizes produced from loop index `i` for `k`
more iterations (the loop drops empty batches). -/
def expectedSizes (q r i : Nat) : Nat → List Nat
  | 0 => []
  | Nat.succ k =>
    if q + (if i < r then 1 else 0) = 0 then expectedSizes q r (i + 1) k
    else (q + if i < r then 1 else 0) :: expectedSizes q r (i + 1) k

theorem sizesSum_eval (q r : Nat) :
    ∀ (k i : Nat), sizesSum q r i k = k * q + min (r - i) k := by
  intro k
  induction k with
  | zero => intro i; simp [sizesSum]
  | succ k ih =>
    intro i
    simp only [sizesSum]
    rw [ih (i + 1), Nat.succ_mul]
    by_cases h : i < r
    · rw [if_pos h]
      omega
    · rw [if_neg h]
      omega

theorem divideLoop_join (elements : List α) (q r : Nat) :
    ∀ (k i start : Nat),
      (divideLoop elements q r i start k).flatten =
        (elements.drop start).take (sizesSum q r i k) := by
  intro k
  induction k with
  | zero => intro i start; simp [divideLoop, sizesSum]
  | succ k ih =>
    intro i start
    simp only [divideLoop, sizesSum]
    by_cases hbe : ((elements.drop start).take (q + if i < r then 1 else 0)).isEmpty = true
    · rw [if_pos hbe, ih (i + 1) (start + (q + if i < r then 1 else 0))]
      rw [List.take_add, List.isEmpty_iff.mp hbe, List.drop_drop]
      simp
    · rw [if_neg hbe, List.flatten_cons,
        ih (i + 1) (start + (q + if i < r then 1 else 0)),
        ← List.drop_drop, ← List.take_add]

theorem divideLoop_map_length (elements : List α) (q r : Nat) :
    ∀ (k i start : Nat), start + sizesSum q r i k ≤ elements.length →
      (divideLoop elements q r i start k).map List.length = expectedSizes q r i k := by
  intro k
  induction k with
  | zero => intro i start _; simp [divideLoop, expectedSizes]
  | succ k ih =>
    intro i start hcap
    simp only [divideLoop, expectedSizes]
    simp only [sizesSum] at hcap
    have hlen : ((elements.drop start).take (q + if i < r then 1 else 0)).length
        = q + if i < r then 1 else 0 := by
      rw [List.length_take, List.length_drop]
      omega
    by_cases hz : q + (if i < r then 1 else 0) = 0
    · have hbe : ((elements.drop start).take (q + if i < r then 1 else 0)).isEmpty = true := by
        rw [List.isEmpty_iff, ← List.length_eq_zero]
        omega
      rw [if_pos hbe, if_pos hz]
      exact ih (i + 1) _ (by omega)
    · have hbe : ¬ ((elements.drop start).take (q + if i < r then 1 else 0)).isEmpty = true := by
        rw [List.isEmpty_iff, ← List.length_eq_zero]
        omega
      rw [if_neg hbe, if_neg hz, List.map_cons, hlen]
      rw [ih (i + 1) _ (by omega)]

theorem expectedSizes_getElem? (q r : Nat) :
    ∀ (k i idx : Nat), idx < (expectedSizes q r i k).length →
      (expectedSizes q r i k)[idx]? = some (q + if i + idx < r then 1 else 0) := by
  intro k
  induction k with
  | zero => intro i idx h; simp [expectedSizes] at h
  | succ k ih =>
    intro i idx h
    simp only [expectedSizes] at h ⊢
    by_cases hz : q + (if i < r then 1 else 0) = 0
    · rw [if_pos hz] at h ⊢
      have hir : ¬ i < r := by
        intro hh; rw [if_pos hh] at hz; omega
      have hq : q = 0 := by rw [if_neg hir] at hz; omega
      rw [ih (i + 1) idx h, if_neg (by omega), if_neg (by omega)]
    · rw [if_neg hz] at h ⊢
      match idx with
      | 0 => rw [List.getElem?_cons_zero]; simp
      | Nat.succ n =>
        rw [List.getElem?_cons_succ]
        rw [ih (i + 1) n (by simpa using h)]
        have h3 : (i + 1) + n = i + (n + 1) := by omega
        rw [h3]

/-- Ceiling division identity used to state the batch-size bound. -/
theorem ceilDiv_eq (N W : Nat) (hW : 0 < W) :
    (N + W - 1) / W = N / W + (if N % W = 0 then 0 else 1) := by
  have hN : W * (N / W) + N % W = N := Nat.div_add_mod N W
  by_cases hr : N % W = 0
  · have h1 : N + W - 1 = W * (N / W) + (W - 1) := by omega
    rw [h1, Nat.mul_add_div hW, Nat.div_eq_of_lt (show W - 1 < W by omega), if_pos hr]
  · have hrW : N % W < W := Nat.mod_lt _ hW
    have h1 : N + W - 1 = W * (N / W + 1) + (N % W - 1) := by
      have h2 : W * (N / W + 1) = W * (N / W) + W := by ring
      omega
    rw [h1, Nat.mul_add_div hW, Nat.div_eq_of_lt (show N % W - 1 < W by omega), if_neg hr]

/-! ### Claim C3 -/

/-- C3: `_divide_elements_into_batches` partitions its input: the batches
concatenate back to exactly the input list in order; no batch exceeds
`⌈N / W⌉` elements; and the batch at index `idx` has `N / W + 1` elements
when `idx < N % W` and `N / W` elements otherwise (empty trailing batches
are not materialised). -/
theorem divide_elements_into_batches_partition (elements : List α) (num_batches : Nat)
    (hW : 0 < num_batches) :
    (divide_elements_into_batches elements num_batches).flatten = elements
    ∧ (∀ b ∈ divide_elements_into_batches elements num_batches,
        b.length ≤ (elements.length + num_batches - 1) / num_batches)
    ∧ (∀ (idx : Nat) (h : idx < (divide_elements_into_batches elements num_batches).length),
        (divide_elements_into_batches elements num_batches)[idx].length =
          elements.length / num_batches
            + if idx < elements.length % num_batches then 1 else 0) := by
  have hr : elements.length % num_batches < num_batches := Nat.mod_lt _ hW
  have htot : sizesSum (elements.length / num_batches) (elements.length % num_batches)
      0 num_batches = elements.length := by
    rw [sizesSum_eval]
    have hdm := Nat.div_add_mod elements.length num_batches
    omega
  have hcap : 0 + sizesSum (elements.length / num_batches)
      (elements.length % num_batches) 0 num_batches ≤ elements.length := by omega
  have hunfold : divide_elements_into_batches elements num_batches =
      divideLoop elements (elements.length / num_batches)
        (elements.length % num_batches) 0 0 num_batches := rfl
  have hmap := divideLoop_map_length elements (elements.length / num_batches)
    (elements.length % num_batches) num_batches 0 0 hcap
  rw [← hunfold] at hmap
  have hidx : ∀ (idx : Nat) (h : idx < (divide_elements_into_batches elements num_batches).length),
      (divide_elements_into_batches elements num_batches)[idx].length =
        elements.length / num_batches
          + if idx < elements.length % num_batches then 1 else 0 := by
    intro idx h
    have h3 : idx < (expectedSizes (elements.length / num_batches)
        (elements.length % num_batches) 0 num_batches).length := by
      rw [← hmap]; simpa using h
    have h5 : ((divide_elements_into_batches elements num_batches).map List.length)[idx]?
        = some (elements.length / num_batches
            + if idx < elements.length % num_batches then 1 else 0) := by
      rw [hmap, expectedSizes_getElem? (elements.length / num_batches)
        (elements.length % num_batches) num_batches 0 idx h3]
      simp
    rw [List.getElem?_map, List.getElem?_eq_getElem h] at h5
    simpa using h5
  refine ⟨?_, ?_, hidx⟩
  · have hjoin := divideLoop_join elements (elements.length / num_batches)
      (elements.length % num_batches) num_batches 0 0
    rw [htot, List.drop_zero, List.take_length] at hjoin
    exact hjoin
  · intro b hb
    rcases List.mem_iff_getElem.mp hb with ⟨idx, hidx2, rfl⟩
    rw [hidx idx hidx2, ceilDiv_eq _ _ hW]
    by_cases hc : idx < elements.length % num_batches
    · rw [if_pos hc, if_neg (by omega)]
    · rw [if_neg hc]
      split_ifs <;> omega

/-- C3 witness: five elements over three workers give batches of sizes
2, 2, 1. -/
theorem divide_elements_into_batches_partition_witness :
    (divide_elements_into_batches [0, 1, 2, 3, 4] 3).flatten = [0, 1, 2, 3, 4]
    ∧ divide_elements_into_batches [0, 1, 2, 3, 4] 3 = [[0, 1], [2, 3], [4]] :=
  ⟨(divide_elements_into_batches_partition [0, 1, 2, 3, 4] 3 (by decide)).1, by decide⟩

/-! ### Claim C1 -/

/-- C1: the outcome classifier applies a fixed priority order with first
match winning — URL change, then title change, then DOM-hash change, then
modal/dropdown presence, then the suspicious dead pattern, then the generic
dead click.  In particular a changed URL yields `active_navigation`
regardless of every other signal, so an observation with both URL and DOM
changed classifies as `active_navigation`, not `active_dom_change`. -/
theorem classify_outcome_priority (element_info : ElementInfo) (obs : Observation) :
    (obs.current_url ≠ obs.initial_url →
      (classify_outcome element_info obs).click_status = "active_navigation")
    ∧ (obs.current_url = obs.initial_url → obs.current_title ≠ obs.initial_title →
      (classify_outcome element_info obs).click_status = "active_title_change")
    ∧ (obs.current_url = obs.initial_url → obs.current_title = obs.initial_title →
      obs.dom_changed = true →
      (classify_outcome element_info obs).click_status = "active_dom_change")
    ∧ (obs.current_url = obs.initial_url → obs.current_title = obs.initial_title →
      obs.dom_changed = false → (obs.modals_present || obs.dropdowns_present) = true →
      (classify_outcome element_info obs).click_status = "active_ui_change"
        ∧ (classify_outcome element_info obs).new_elements_appeared = true)
    ∧ (obs.current_url = obs.initial_url → obs.current_title = obs.initial_title →
      obs.dom_changed = false → obs.modals_present = false → obs.dropdowns_present = false →
      is_dead_click_by_href element_info = true →
      (classify_outcome element_info obs).click_status = "dead_click"
        ∧ (classify_outcome element_info obs).error_message
            = "Dead click: suspicious href or onclick and no visible effect")
    ∧ (obs.current_url = obs.initial_url → obs.current_title = obs.initial_title →
      obs.dom_changed = false → obs.modals_present = false → obs.dropdowns_present = false →
      is_dead_click_by_href element_info = false →
      (classify_outcome element_info obs).click_status = "dead_click"
        ∧ (classify_outcome element_info obs).error_message
            = "Dead click: no visible effect after click") := by
  refine ⟨?_, ?_, ?_, ?_, ?_, ?_⟩
  · intro h1
    simp [classify_outcome, h1]
  · intro h1 h2
    simp [classify_outcome, h1, h2]
  · intro h1 h2 h3
    simp [classify_outcome, h1, h2, h3]
  · intro h1 h2 h3 h4
    simp [classify_outcome, h1, h2, h3, h4]
  · intro h1 h2 h3 h4 h5 h6
    simp [classify_outcome, h1, h2, h3, h4, h5, h6]
  · intro h1 h2 h3 h4 h5 h6
    simp [classify_outcome, h1, h2, h3, h4, h5, h6]

def c1I : ElementInfo := {}

def c1Obs : Observation :=
  { initial_url := "https://a", current_url := "https://b", dom_changed := true }

/-- C1 witness: URL changed and the DOM hash changed too; the classifier
reports `active_navigation`. -/
theorem classify_outcome_priority_witness :
    c1Obs.dom_changed = true
    ∧ (classify_outcome c1I c1Obs).click_status = "active_navigation" :=
  ⟨rfl, (classify_outcome_priority c1I c1Obs).1 (by decide)⟩

/-! ### Claim C5 -/

/-- C5: if the re-location chain returns no element in all three attempts,
the test ends as `element_not_found` and no click is attempted — the
produced result is a fixed record independent of the click behaviour. -/
theorem retry_exhaustion_element_not_found (element_info : ElementInfo) (env : TestEnv)
    (hraise : env.raised = none)
    (h0 : env.find_attempt 0 = none) (h1 : env.find_attempt 1 = none)
    (h2 : env.find_attempt 2 = none) :
    test_element_click element_info env =
      { element_info := element_info, click_status := "element_not_found",
        error_message := "Element could not be located for clicking (after retries)",
        url_before := env.observation.initial_url }
    ∧ ∀ ca : ClickAttempt,
        test_element_click element_info { env with click_attempt := ca }
          = test_element_click element_info env := by
  constructor
  · simp [test_element_click, locate_with_retries, interactable, hraise, h0, h1, h2]
  · intro ca
    simp [test_element_click, locate_with_retries, interactable, hraise, h0, h1, h2]

def c5env : TestEnv := { find_attempt := fun _ => none }

/-- C5 witness: a concrete environment in which every locate attempt fails. -/
theorem retry_exhaustion_element_not_found_witness :
    (test_element_click c1I c5env).click_status = "element_not_found" := by
  have h := retry_exhaustion_element_not_found c1I c5env rfl rfl rfl rfl
  rw [h.1]

/-! ### Claim C6 -/

/-- C6: an element whose href normalises (spaces removed, lowercased) to
`javascript:void(0)` and whose click produced no URL, title, DOM, or
modal/dropdown change is classified `dead_click` with the suspicious-pattern
message, not the generic no-visible-effect message. -/
theorem javascript_void_href_dead_click (element_info : ElementInfo) (obs : Observation)
    (hhref : stripSpacesLower element_info.href = "javascript:void(0)")
    (hurl : obs.current_url = obs.initial_url)
    (htitle : obs.current_title = obs.initial_title)
    (hdom : obs.dom_changed = false)
    (hmod : obs.modals_present = false) (hdrop : obs.dropdowns_present = false) :
    (classify_outcome element_info obs).click_status = "dead_click"
    ∧ (classify_outcome element_info obs).error_message
        = "Dead click: suspicious href or onclick and no visible effect"
    ∧ (classify_outcome element_info obs).error_message
        ≠ "Dead click: no visible effect after click" := by
  have hsusp : is_dead_click_by_href element_info = true := by
    unfold is_dead_click_by_href
    rw [hhref]
    simp [dead_patterns]
  have hmsg : (classify_outcome element_info obs).error_message
      = "Dead click: suspicious href or onclick and no visible effect" := by
    simp [classify_outcome, hurl, htitle, hdom, hmod, hdrop, hsusp]
  refine ⟨?_, hmsg, ?_⟩
  · simp [classify_outcome, hurl, htitle, hdom, hmod, hdrop, hsusp]
  · rw [hmsg]
    decide

def c6I : ElementInfo := { tag_name := "a", href := "javascript: void(0)" }

def c6Obs : Observation :=
  { initial_url := "u", current_url := "u", initial_title := "t", current_title := "t" }

/-- C6 witness: a concrete `javascript: void(0)` href with a no-effect
observation. -/
theorem javascript_void_href_dead_click_witness :
    (classify_outcome c6I c6Obs).click_status = "dead_click"
    ∧ (classify_outcome c6I c6Obs).error_message
        = "Dead click: suspicious href or onclick and no visible effect" := by
  have h := javascript_void_href_dead_click c6I c6Obs (by decide) rfl rfl rfl rfl rfl
  exact ⟨h.1, h.2.1⟩

/-! ### Claim C10 -/

/-- C10: when the re-location chain does return an element but, after
scrolling, it is not displayed or not enabled, the test ends in the
additional terminal status `not_clickable` with message
"Element is not displayed or enabled"; no click is attempted, and the status
differs from both `element_not_found` and `error`. -/
theorem not_clickable_terminal_status (element_info : ElementInfo) (env : TestEnv)
    (el : LocatedElement) (hraise : env.raised = none)
    (hfound : locate_with_retries env.find_attempt = some el)
    (hnot : (el.displayed_after_scroll && el.enabled_after_scroll) = false) :
    test_element_click element_info env =
      { element_info := element_info, click_status := "not_clickable",
        error_message := "Element is not displayed or enabled",
        url_before := env.observation.initial_url }
    ∧ ("not_clickable" : String) ≠ "element_not_found"
    ∧ ("not_clickable" : String) ≠ "error"
    ∧ ∀ ca : ClickAttempt,
        test_element_click element_info { env with click_attempt := ca }
          = test_element_click element_info env := by
  refine ⟨?_, by decide, by decide, ?_⟩
  · simp [test_element_click, hraise, hfound, hnot]
  · intro ca
    simp [test_element_click, hraise, hfound, hnot]

def c10el : LocatedElement := { displayed_after_scroll := false }

def c10env : TestEnv := { find_attempt := fun _ => some c10el }

/-- C10 witness: an element located on the first attempt that is no longer
displayed after the scroll. -/
theorem not_clickable_terminal_status_witness :
    (test_element_click c1I c10env).click_status = "not_clickable" := by
  have h := not_clickable_terminal_status c1I c10env c10el rfl rfl rfl
  rw [h.1]

/-! ### Claim C7 -/

theorem tally_foldl (results : List ClickOutcome) :
    ∀ (a d e : Nat), results.foldl tallyStep (a, d, e) =
      (a + results.countP (fun res => strStartsWith res.click_status "active"),
       d + results.countP (fun res => !strStartsWith res.click_status "active"
              && decide (res.click_status = "dead_click")),
       e + results.countP (fun res => !strStartsWith res.click_status "active"
              && !decide (res.click_status = "dead_click"))) := by
  induction results with
  | nil => intro a d e; simp
  | cons x t ih =>
    intro a d e
    rw [List.foldl_cons]
    by_cases hact : strStartsWith x.click_status "active" = true
    · have hstep : tallyStep (a, d, e) x = (a + 1, d, e) := by
        unfold tallyStep; rw [if_pos hact]
      rw [hstep, ih]
      simp only [List.countP_cons]
      simp [hact, Prod.ext_iff]
      all_goals omega
    · by_cases hdead : x.click_status = "dead_click"
      · have hstep : tallyStep (a, d, e) x = (a, d + 1, e) := by
          unfold tallyStep; rw [if_neg hact, if_pos hdead]
        rw [hstep, ih]
        simp only [List.countP_cons]
        simp [hact, hdead, Prod.ext_iff,
          show strStartsWith "dead_click" "active" = false from rfl]
        all_goals omega
      · have hstep : tallyStep (a, d, e) x = (a, d, e + 1) := by
          unfold tallyStep; rw [if_neg hact, if_neg hdead]
        rw [hstep, ih]
        simp only [List.countP_cons]
        simp [hact, hdead, Prod.ext_iff]
        all_goals omega

theorem tally_countP_sum (results : List ClickOutcome) :
    results.countP (fun res => strStartsWith res.click_status "active")
      + results.countP (fun res => !strStartsWith res.click_status "active"
          && decide (res.click_status = "dead_click"))
      + results.countP (fun res => !strStartsWith res.click_status "active"
          && !decide (res.click_status = "dead_click"))
      = results.length := by
  induction results with
  | nil => simp
  | cons x t iht =>
    simp only [List.countP_cons, List.length_cons]
    by_cases hact : strStartsWith x.click_status "active" = true
    · simp [hact]
      omega
    · by_cases hdead2 : x.click_status = "dead_click"
      · simp [hact, hdead2, show strStartsWith "dead_click" "active" = false from rfl]
        omega
      · simp [hact, hdead2]
        omega

/-- C7: the outcome tally counts statuses starting with "active" into
`active_clicks`, statuses equal to "dead_click" into `dead_clicks`, and every
other status into `errors`; the three counters sum to the length of the
accumulated results, which equals the sum of per-batch result counts (the
code's `elements_tested`).  In particular each concrete error-family status
(`element_not_found`, `not_clickable`, `click_intercepted`, `error`,
`batch_error`) starts no "active" prefix and is not "dead_click", so it is
tallied as an error. -/
theorem tally_outcomes_partition (batch_results : List (List ClickOutcome)) :
    ((tally_outcomes batch_results.flatten).1
        = batch_results.flatten.countP (fun res => strStartsWith res.click_status "active")
      ∧ (tally_outcomes batch_results.flatten).2.1
        = batch_results.flatten.countP (fun res => decide (res.click_status = "dead_click"))
      ∧ (tally_outcomes batch_results.flatten).2.2
        = batch_results.flatten.countP (fun res => !strStartsWith res.click_status "active"
            && !decide (res.click_status = "dead_click")))
    ∧ (tally_outcomes batch_results.flatten).1
        + (tally_outcomes batch_results.flatten).2.1
        + (tally_outcomes batch_results.flatten).2.2
      = (batch_results.map List.length).sum
    ∧ (["element_not_found", "not_clickable", "click_intercepted", "error",
        "batch_error"].all
          (fun s => !strStartsWith s "active" && decide (s ≠ "dead_click")) = true) := by
  have hfold := tally_foldl batch_results.flatten 0 0 0
  have hdead : batch_results.flatten.countP
      (fun res => !strStartsWith res.click_status "active"
        && decide (res.click_status = "dead_click"))
      = batch_results.flatten.countP (fun res => decide (res.click_status = "dead_click")) := by
    apply List.countP_congr
    intro res _
    by_cases hd : res.click_status = "dead_click"
    · rw [hd]
      constructor <;> intro <;> decide
    · simp [hd]
  refine ⟨⟨?_, ?_, ?_⟩, ?_, by decide⟩
  · rw [tally_outcomes, hfold]
    simp
  · rw [tally_outcomes, hfold]
    simpa using hdead
  · rw [tally_outcomes, hfold]
    simp
  · rw [tally_outcomes, hfold, ← List.length_flatten]
    simpa using tally_countP_sum batch_results.flatten

/-! ### Claim C8 -/

/-- C8: a batch produces exactly one result entry per element in order; when
the per-element runner returns a result, that result (carrying its
element_info) is the entry; when it raises, the batch boundary records a
`batch_error` entry for that element and the batch continues; and inside the
per-element test itself, an exception raised in the guarded block is caught
and recorded as status `error` with the exception message. -/
theorem test_element_batch_isolation (batch : List ElementInfo)
    (run_element : ElementInfo → Except String ClickOutcome) (url : String)
    (hrun : ∀ info res, run_element info = Except.ok res → res.element_info = info) :
    (test_element_batch batch run_element url).length = batch.length
    ∧ (∀ (i : Nat) (hi : i < batch.length)
         (hi2 : i < (test_element_batch batch run_element url).length),
        (test_element_batch batch run_element url)[i].element_info = batch[i])
    ∧ (∀ (i : Nat) (hi : i < batch.length)
         (hi2 : i < (test_element_batch batch run_element url).length) (msg : String),
        run_element batch[i] = Except.error msg →
        (test_element_batch batch run_element url)[i] = batch_error_result batch[i] url msg
          ∧ (test_element_batch batch run_element url)[i].click_status = "batch_error")
    ∧ (∀ (element_info : ElementInfo) (env : TestEnv) (msg : String),
        env.raised = some msg →
        (test_element_click element_info env).click_status = "error"
          ∧ (test_element_click element_info env).error_message = msg) := by
  refine ⟨by simp [test_element_batch], ?_, ?_, ?_⟩
  · intro i hi hi2
    unfold test_element_batch at hi2 ⊢
    rw [List.getElem_map]
    cases hc : run_element batch[i] with
    | ok res => simp only [hc]; exact hrun _ res hc
    | error msg => simp only [hc]; rfl
  · intro i hi hi2 msg hmsg
    unfold test_element_batch at hi2 ⊢
    rw [List.getElem_map, hmsg]
    exact ⟨rfl, rfl⟩
  · intro element_info env msg hm
    simp [test_element_click, hm]

def c8env : TestEnv := { find_attempt := fun _ => none, raised := some "kaput" }

/-- C8 witness: an exception raised inside the guarded per-element block is
recorded as an `error` result with its message. -/
theorem test_element_batch_isolation_witness :
    c8env.raised = some "kaput"
    ∧ ((test_element_click c1I c8env).click_status = "error"
        ∧ (test_element_click c1I c8env).error_message = "kaput") :=
  ⟨rfl, (test_element_batch_isolation [] (fun _ => Except.error "") ""
      (fun _ _ hc => Except.noConfusion hc)).2.2.2 c1I c8env "kaput" rfl⟩

/-! ### Claim C9 -/

/-- C9: the fingerprint is a deterministic function of (tag name, id,
class-name string, truncated text): for any hash function, descriptors equal
on tag, id, class names, and the first 50 characters of their text receive
equal fingerprints, so texts differing only beyond character 50 hash alike. -/
theorem create_unique_id_deterministic (h : String → Int) (d1 d2 : ElementInfo)
    (htag : d1.tag_name = d2.tag_name) (hid : d1.id = d2.id)
    (hcls : d1.class_names = d2.class_names)
    (htext : d1.text.toList.take 50 = d2.text.toList.take 50) :
    create_unique_id h d1 = create_unique_id h d2 := by
  unfold create_unique_id take50
  rw [htag, hid, hcls, htext]

def c9D1 : ElementInfo :=
  { tag_name := "a", id := "x", class_names := "c",
    text := String.mk (List.replicate 50 'a' ++ ['X']) }

def c9D2 : ElementInfo :=
  { tag_name := "a", id := "x", class_names := "c",
    text := String.mk (List.replicate 50 'a' ++ ['Y']) }

/-- C9 witness: two descriptors whose texts differ only at character 51 get
the same fingerprint (here under a concrete hash function). -/
theorem create_unique_id_deterministic_witness :
    (c9D1.text ≠ c9D2.text ∧ c9D1.text.toList.take 50 = c9D2.text.toList.take 50)
    ∧ create_unique_id (fun s => (s.length : Int)) c9D1
        = create_unique_id (fun s => (s.length : Int)) c9D2 :=
  ⟨⟨by decide, by decide⟩,
    create_unique_id_deterministic (fun s => (s.length : Int)) c9D1 c9D2 rfl rfl rfl (by decide)⟩

end DeadClickCrawler
